import Mathlib

/-!
Shallow embedding of `src/mms/mms_sdc_api_client.py` (class `MMS_SDC_API_CLIENT`),
the reconciliation and download engine for the MMS SDC archive, together with
theorems settling the frozen claims about its specification.

Conventions of the embedding:
* The mutable attribute state of an `MMS_SDC_API_CLIENT` instance is the
  structure `Sel`; each Python attribute assignment (which is intercepted by the
  class's `__setattr__` hook) becomes an explicit state-transition function
  (`setSc`, `setFiles`, `setLevel`, ...).  Assignments that may raise
  (`data_type`, `site`) return `Except String Sel`.
* Python `datetime.datetime` values are the structure `DateTime` (Gregorian
  date plus time of day); the string-parsing front end of the `start_date` /
  `end_date` setters is outside the claims and the setters take `DateTime`
  values directly.
* Network and disk I/O are passed in as explicit parameters (the remote
  response text, an `isfile` predicate, the enumeration of local files) and
  each network request issued is recorded in an explicit trace list.
* `mms_utils` is code of this repository that is not under `src/`; its
  `filter_time` collaborator is modelled from the spec (see `filter_time`).
-/

set_option linter.unusedVariables false

namespace MmsSdcApiClient

/-- A Python value that is either a single string or a list of strings;
several selector fields accept both (class docstring, lines 31-50). -/
inductive StrOrList where
  | s (v : String)
  | l (vs : List String)
deriving DecidableEq

/-- `value if isinstance(value, str) else ','.join(value)` as used by `Query`
(lines 519-538). -/
def joinVal : StrOrList → String
  | .s v => v
  | .l vs => String.intercalate "," vs

/-- A `datetime.datetime` value: Gregorian calendar date plus time of day. -/
structure DateTime where
  year : Nat
  month : Nat
  day : Nat
  hour : Nat
  minute : Nat
  second : Nat
deriving DecidableEq

/-- Gregorian leap-year rule (as implemented by Python's `datetime`). -/
def isLeap (y : Nat) : Bool := y % 4 == 0 && (y % 100 != 0 || y % 400 == 0)

/-- Number of days of month `m` in year `y`. -/
def daysInMonth (y m : Nat) : Nat :=
  if m == 2 then (if isLeap y then 29 else 28)
  else if m == 4 || m == 6 || m == 9 || m == 11 then 30
  else 31

/-- `d + datetime.timedelta(1)`: the next calendar day, time of day unchanged
(used by `Query`, line 516). -/
def addOneDay (d : DateTime) : DateTime :=
  if d.day < daysInMonth d.year d.month then { d with day := d.day + 1 }
  else if d.month < 12 then { d with month := d.month + 1, day := 1 }
  else { d with year := d.year + 1, month := 1, day := 1 }

/-- Zero-pad the decimal representation of `n` to width `w`. -/
def pad (w : Nat) (n : Nat) : String :=
  let s := toString n
  if s.length < w then String.mk (List.replicate (w - s.length) '0') ++ s else s

/-- `strftime('%Y-%m-%d')`. -/
def fmtDate (d : DateTime) : String :=
  pad 4 d.year ++ "-" ++ pad 2 d.month ++ "-" ++ pad 2 d.day

/-- `a.date() == b.date()`. -/
def sameDateB (a b : DateTime) : Bool :=
  a.year == b.year && a.month == b.month && a.day == b.day

/-- `d.time() == datetime.time(0, 0, 0)`. -/
def midnightB (d : DateTime) : Bool :=
  d.hour == 0 && d.minute == 0 && d.second == 0

/-- The attribute state of an `MMS_SDC_API_CLIENT` instance (the fields set in
`__init__`, lines 53-96; `_site`, `_start_date` and `_end_date` are the
backing fields of the corresponding properties). -/
structure Sel where
  _site : String := "public"
  anc_product : Option StrOrList := none
  data_type : String := "science"
  _end_date : Option DateTime := none
  instr : Option StrOrList := none
  level : Option StrOrList := none
  mode : Option StrOrList := none
  offline : Bool := false
  optdesc : Option StrOrList := none
  sc : Option StrOrList := none
  _start_date : Option DateTime := none
  version : Option StrOrList := none
  files : Option StrOrList := none
  data_root : String := ""
deriving DecidableEq

/-- The `site` property setter (lines 621-628): the restricted aliases map to
the internal value `"sitl"`, the public aliases to `"public"`, anything else
raises `ValueError`. -/
def Sel.setSite (s : Sel) (v : String) : Except String Sel :=
  if v == "team" || v == "team_site" || v == "sitl" || v == "private" then
    .ok { s with _site := "sitl" }
  else if v == "public" || v == "public_site" then
    .ok { s with _site := "public" }
  else
    .error "Invalid value for the \"site\" attribute"

/-- The internal `_site` value produced by assigning `level := v`
(`__setattr__`, lines 122-126: `level ∈ [None, 'l2', 'l3']` gives
`site = 'public'`, anything else `site = 'private'`, i.e. internal `"sitl"`). -/
def siteOfLevel : Option StrOrList → String
  | none => "public"
  | some (.s "l2") => "public"
  | some (.s "l3") => "public"
  | _ => "sitl"

/-- Assignment `self.level = v` (`__setattr__` lines 122-126 then 129):
auto-derives `site`, then stores the value. -/
def Sel.setLevel (s : Sel) (v : Option StrOrList) : Sel :=
  { s with _site := siteOfLevel v, level := v }

/-- Assignment `self.data_type = v` (`__setattr__` lines 111-113): raises
`ValueError` unless the value is one of `'ancillary'`, `'hk'`, `'science'`. -/
def Sel.setDataType (s : Sel) (v : String) : Except String Sel :=
  if v == "ancillary" || v == "hk" || v == "science" then
    .ok { s with data_type := v }
  else
    .error ("Invalid value for attribute \"data_type\":\"" ++ v ++ "\".")

/-- Assignment `self.anc_product = v` (`__setattr__` lines 109-110 then 129):
first executes `self.data_type = 'ancillary'` (unconditionally, also for
`v = None`), then stores the value. -/
def Sel.setAncProduct (s : Sel) (v : Option StrOrList) : Except String Sel :=
  (s.setDataType "ancillary").map fun t => { t with anc_product := v }

/-- Assignment `self.files = v` (`__setattr__` lines 114-121 then 129): a
non-`None` value first clears `sc`, `instr`, `mode`, `level` (which re-derives
`site`), `optdesc` and `version`; then the value is stored. -/
def Sel.setFiles (s : Sel) (v : Option StrOrList) : Sel :=
  match v with
  | none => { s with files := none }
  | some x =>
    let s := { s with sc := none, instr := none, mode := none }
    let s := s.setLevel none
    let s := { s with optdesc := none, version := none }
    { s with files := some x }

/-- Plain attribute assignments with no `__setattr__` hook. -/
def Sel.setSc (s : Sel) (v : Option StrOrList) : Sel := { s with sc := v }

def Sel.setInstr (s : Sel) (v : Option StrOrList) : Sel := { s with instr := v }

def Sel.setMode (s : Sel) (v : Option StrOrList) : Sel := { s with mode := v }

def Sel.setOptdesc (s : Sel) (v : Option StrOrList) : Sel := { s with optdesc := v }

def Sel.setVersion (s : Sel) (v : Option StrOrList) : Sel := { s with version := v }

def Sel.setOffline (s : Sel) (v : Bool) : Sel := { s with offline := v }

def Sel.setStartDate (s : Sel) (v : Option DateTime) : Sel := { s with _start_date := v }

def Sel.setEndDate (s : Sel) (v : Option DateTime) : Sel := { s with _end_date := v }

/-- One query entry, present only when the field is non-`None`
(`Query`, lines 519-538). -/
def optEntry (k : String) : Option StrOrList → List (String × String)
  | none => []
  | some v => [(k, joinVal v)]

/-- The key-value pairs built by `Query` (lines 518-540), in insertion order;
`endStr` is the already-adjusted `end_date` string (`some` exactly when
`_end_date` is set). -/
def queryList (s : Sel) (endStr : Option String) : List (String × String) :=
  optEntry "sc_id" s.sc ++
  optEntry "instrument_id" s.instr ++
  optEntry "data_rate_mode" s.mode ++
  optEntry "data_level" s.level ++
  optEntry "descriptor" s.optdesc ++
  optEntry "version" s.version ++
  optEntry "files" s.files ++
  (match s._start_date with
   | some sd => [("start_date", fmtDate sd)]
   | none => []) ++
  (match endStr with
   | some e => [("end_date", e)]
   | none => []) ++
  optEntry "product" s.anc_product

/-- `Query` (lines 504-540).  The end-date adjustment (lines 512-516): the
emitted `end_date` is bumped by one calendar day when the start and end dates
fall on the same calendar day or the end date carries a non-midnight
time-of-day.  When `_end_date` is set but `_start_date` is `None`, line 515
dereferences `None` (`AttributeError`), modelled as `.error`. -/
def Query (s : Sel) : Except String (List (String × String)) :=
  match s._end_date with
  | none => .ok (queryList s none)
  | some ed =>
    match s._start_date with
    | none => .error "AttributeError: NoneType has no attribute date"
    | some sd =>
      let e :=
        if sameDateB sd ed || !(midnightB ed) then fmtDate (addOneDay ed)
        else fmtDate ed
      .ok (queryList s (some e))

/-! ### String splitting, path joining, and file-name parsing -/

/-- Python `str.split(c)` for a single-character separator `c`, on character
lists: splits at every occurrence, keeping empty pieces (`''.split(c) = ['']`). -/
def splitCh (c : Char) : List Char → List (List Char)
  | [] => [[]]
  | x :: xs =>
    let r := splitCh c xs
    if x = c then [] :: r else (x :: r.headD []) :: r.tail

/-- Python `s.split(c)` for a single-character separator. -/
def strSplit (c : Char) (s : String) : List String :=
  (splitCh c s.data).map String.mk

/-- `os.path.basename`: everything after the last `'/'`. -/
def basename (s : String) : String :=
  (strSplit '/' s).getLastD ""

/-- One step of `os.path.join` on POSIX: a component starting with the
separator restarts the path; otherwise it is appended, inserting a separator
unless the accumulated path is empty or already ends in one. -/
def join2 (a b : String) : String :=
  if b.data.head? = some '/' then b
  else if a.data = [] ∨ a.data.getLast? = some '/' then a ++ b
  else a ++ "/" ++ b

/-- `os.path.join(p₁, p₂, ...)` on POSIX. -/
def pyJoin : List String → String
  | [] => ""
  | h :: t => t.foldl join2 h

/-- `ParseFileNames` (lines 469-501): split the basename on `'_'`; a 6-field
name gets the empty string inserted at the descriptor position
(`parts.insert(-2, '')`, i.e. index 4); the trailing 4-character extension is
stripped from the last field (`parts[-1] = parts[-1][0:-4]`). -/
def ParseFileNames (filename : String) : List String :=
  let parts := strSplit '_' (basename filename)
  let parts :=
    if parts.length == 6 then parts.take 4 ++ [""] ++ parts.drop 4 else parts
  parts.dropLast ++ [(parts.getLastD "").dropRight 4]

/-- Modelled from the spec: `mms_utils.filter_time` is code of this repository
that is not under `src/` (only its callers are).  Per §6 of the spec it is
`filterByTime(names, start, end) -> the subset of names within [start, end)`,
deciding by the time tag embedded in each file name; the time tag is part of
the file's basename, so the decision is modelled as an arbitrary predicate
`tp` on the basename, threaded through as a parameter. -/
def filter_time (tp : String → Bool) (names : List String) : List String :=
  names.filter fun n => tp (basename n)

/-- `FileNames` (lines 291-302): an empty response body gives `[]`; otherwise
the comma-separated response is time-filtered.  `respText` is the body of the
network response. -/
def FileNames (tp : String → Bool) (respText : String) : List String :=
  if respText = "" then [] else filter_time tp (strSplit ',' respText)

/-- The local name derived from one remote identifier
(`remote2localnames`, line 562): `data_root` joined with the identifier's
`'/'`-separated components after the first two. -/
def r2lname (root : String) (f : String) : String :=
  pyJoin (root :: (strSplit '/' f).drop 2)

/-- `remote2localnames` (lines 543-567) as invoked by `Search` (list input;
the final single-element unwrap at line 564 compares `type(x)` with the string
`'str'`, which is never equal, so it never fires). -/
def remote2localnames (root : String) (remote_names : List String) : List String :=
  remote_names.map (r2lname root)

/-- `Search` (lines 570-607).  I/O is passed in explicitly: `tp` is the
time-filter predicate (see `filter_time`), `isfile` is `os.path.isfile`,
`localEnum` is the result of the disk enumeration `Local_FileNames()` (whose
glob patterns come from the missing `mms_utils.construct_path`), and
`respText` is the remote response body.  Returns the `(local, remote)` pair
together with the trace of network requests issued. -/
def Search (tp isfile : String → Bool) (localEnum : List String)
    (respText : String) (s : Sel) :
    (List String × List String) × List String :=
  let res :=
    if s.offline then
      ((localEnum, ([] : List String)), ([] : List String))
    else
      let remote_files := FileNames tp respText
      let lf := remote2localnames s.data_root remote_files
      let idx := (List.range lf.length).filter fun i => isfile (lf.getD i "")
      let local2 := idx.map fun i => lf.getD i ""
      let remote2 :=
        ((List.range remote_files.length).filter fun i => !(idx.contains i)).map
          fun i => remote_files.getD i ""
      ((local2, remote2), ["file_names"])
  let lf2 := if 0 < res.1.1.length then filter_time tp res.1.1 else res.1.1
  let rf2 := if 0 < res.1.2.length then filter_time tp res.1.2 else res.1.2
  ((lf2, rf2), res.2)

/-- `Download` (lines 227-281), result and request trace.  The offline branch
returns the local list from `Search` before any network access (lines
234-236).  The actual file transfers of the non-offline branch are abstracted
by the parameter `newfiles` (the paths produced by the download tasks); the
claims settled here concern only the offline and empty-remote paths. -/
def Download (tp isfile : String → Bool) (localEnum : List String)
    (respText : String) (newfiles : List String) (s : Sel) :
    List String × List String :=
  let r := Search tp isfile localEnum respText s
  if s.offline then (r.1.1, r.2)
  else if 0 < r.1.2.length then
    (r.1.1 ++ newfiles, r.2 ++ ["file_info"] ++ r.1.2.map fun _ => "download")
  else (r.1.1, r.2)

/-! ### Disk state and `DownloadFile` -/

/-- The relevant disk state: an association from path to file content (bytes),
most recent binding first. -/
abbrev FS := List (String × List Nat)

/-- `os.path.isfile` / content lookup on the modelled disk. -/
def lookupFS (fs : FS) (p : String) : Option (List Nat) :=
  (fs.find? fun kv => kv.1 == p).map (·.2)

/-- `os.remove`. -/
def removeFS (fs : FS) (p : String) : FS :=
  fs.filter fun kv => kv.1 != p

/-- `open(p, 'wb')` followed by writing `v`: truncating write. -/
def setFS (fs : FS) (p : String) (v : List Nat) : FS :=
  (p, v) :: removeFS fs p

/-- `RemoveIfExists` (lines 20-21): `if os.path.isfile(p): os.remove(p)`. -/
def RemoveIfExists (fs : FS) (p : String) : FS :=
  if (lookupFS fs p).isSome then removeFS fs p else fs

/-- Outcome of the streamed transfer inside `DownloadFile`'s `try` block
(lines 213-220): the POST may fail before the file is opened (`netFail`), the
chunk loop may fail after writing a prefix of the chunks (`writeFail`), or all
chunks are written (`ok`). -/
inductive StreamResult where
  | ok (chunks : List (List Nat))
  | netFail
  | writeFail (chunks : List (List Nat))

/-- `DownloadFile` (lines 202-225).  The destination path (computed at lines
206-210 by `name2path` / `ancillaryname2path`, directories ensured at line
210) is the given `file`.  The `try` block opens `file` for truncating write
and streams chunks into it; the bare `except` (lines 221-223) runs
`RemoveIfExists(file)` and re-raises; on success `file` is returned. -/
def DownloadFile (fs : FS) (file : String) (r : StreamResult) :
    FS × Except Unit String :=
  match r with
  | .ok chunks => (setFS fs file chunks.flatten, .ok file)
  | .netFail => (RemoveIfExists fs file, .error ())
  | .writeFail chunks => (RemoveIfExists (setFS fs file chunks.flatten) file, .error ())

/-! ### The selector-state effect of `Download` -/

/-- Which of the three exits the `remote_files`-nonempty block of `Download`
takes: `FileInfo()` at line 262 raises (`metaFail`), a download task inside
the `try` at lines 266-273 raises (`taskFail`), or everything succeeds. -/
inductive DLOutcome where
  | success
  | metaFail
  | taskFail

/-- The restoration loop of `Download` (lines 270-272 and 277-279):
`for key in state: self.files = None; setattr(self, key, state[key])`, where
`state` holds the entry values of `sc, instr, mode, level, optdesc, version,
files` in that (dict-insertion) order; `snap` is the selector at entry. -/
def restoreState (cur snap : Sel) : Sel :=
  let c := (cur.setFiles none).setSc snap.sc
  let c := (c.setFiles none).setInstr snap.instr
  let c := (c.setFiles none).setMode snap.mode
  let c := (c.setFiles none).setLevel snap.level
  let c := (c.setFiles none).setOptdesc snap.optdesc
  let c := (c.setFiles none).setVersion snap.version
  (c.setFiles none).setFiles snap.files

/-- The selector-state effect of the `remote_files`-nonempty block of
`Download` (lines 241-281): save `site` (line 247) and the seven fields (lines
248-255); assign `files` to the basenames of the missing remote files (line
256); re-assign `site` (line 261); then either `FileInfo()` raises with no
restoration (line 262 is outside the `try`), or the restoration loop runs —
in the `except` handler before re-raising (lines 269-273), or after a
successful download (lines 277-279). -/
def downloadEffect (s : Sel) (bn : List String) (o : DLOutcome) : Sel :=
  let site := s._site
  let s1 := s.setFiles (some (.l bn))
  let s2 := match s1.setSite site with
    | .ok t => t
    | .error _ => s1
  match o with
  | .metaFail => s2
  | .taskFail => restoreState s2 s
  | .success => restoreState s2 s

/-! ### The attribute-assignment operations of the selector -/

/-- One attribute assignment on the selector (each goes through
`__setattr__`, lines 102-129, or a property setter). -/
inductive SelOp where
  | oSc (v : Option StrOrList)
  | oInstr (v : Option StrOrList)
  | oMode (v : Option StrOrList)
  | oOptdesc (v : Option StrOrList)
  | oVersion (v : Option StrOrList)
  | oFiles (v : Option StrOrList)
  | oLevel (v : Option StrOrList)
  | oSite (v : String)
  | oDataType (v : String)
  | oAncProduct (v : Option StrOrList)
  | oOffline (b : Bool)
  | oStartDate (v : Option DateTime)
  | oEndDate (v : Option DateTime)

/-- Execute one attribute assignment; `.error` is a raised `ValueError`. -/
def applyOp (s : Sel) : SelOp → Except String Sel
  | .oSc v => .ok (s.setSc v)
  | .oInstr v => .ok (s.setInstr v)
  | .oMode v => .ok (s.setMode v)
  | .oOptdesc v => .ok (s.setOptdesc v)
  | .oVersion v => .ok (s.setVersion v)
  | .oFiles v => .ok (s.setFiles v)
  | .oLevel v => .ok (s.setLevel v)
  | .oSite v => s.setSite v
  | .oDataType v => s.setDataType v
  | .oAncProduct v => s.setAncProduct v
  | .oOffline b => .ok (s.setOffline b)
  | .oStartDate v => .ok (s.setStartDate v)
  | .oEndDate v => .ok (s.setEndDate v)

/-! ### Example selector states used by witnesses and counterexamples -/

/-- A selector as built by `__init__` with `sc='mms1'`, `instr='fgm'`,
`mode='srvy'`, `level='l2'` (so `site` was auto-derived to `"public"`). -/
def exSel : Sel :=
  { _site := "public", sc := some (.s "mms1"), instr := some (.s "fgm"),
    mode := some (.s "srvy"), level := some (.s "l2"), data_root := "data" }

/-- `exSel` after the further explicit assignment `site = 'private'`
(internal value `"sitl"`), overriding the value auto-derived from `level`. -/
def exSelPriv : Sel := { exSel with _site := "sitl" }

/-- A selector with `start_date = 2020-01-05` and
`end_date = 2020-01-05T00:00:00` (same calendar day, midnight). -/
def exSelSameDay : Sel :=
  { _start_date := some ⟨2020, 1, 5, 0, 0, 0⟩, _end_date := some ⟨2020, 1, 5, 0, 0, 0⟩ }

/-- A selector with `start_date = 2020-01-05` and
`end_date = 2020-01-07T00:00:00` (different day, midnight). -/
def exSelLaterDay : Sel :=
  { _start_date := some ⟨2020, 1, 5, 0, 0, 0⟩, _end_date := some ⟨2020, 1, 7, 0, 0, 0⟩ }

/-- A selector with `offline = True`. -/
def exSelOffline : Sel := { offline := true }

/-- The invariant asserted for `data_type`: it is one of the three values the
code accepts (`'hk'` is the spec's "housekeeping"). -/
def validDataType (s : Sel) : Prop :=
  s.data_type = "ancillary" ∨ s.data_type = "hk" ∨ s.data_type = "science"

/-- The restoration behaviour `Download`'s state handling actually exhibits,
for a selector whose `files` field is `None` at entry: on the success path and
on the download-task failure path the seven snapshotted fields are restored
and `_site` is re-derived from the entry `level`; on a metadata-fetch failure
nothing is restored. -/
def restoreSpec (s : Sel) (bn : List String) : Prop :=
  ((downloadEffect s bn .success).sc = s.sc ∧
   (downloadEffect s bn .success).instr = s.instr ∧
   (downloadEffect s bn .success).mode = s.mode ∧
   (downloadEffect s bn .success).level = s.level ∧
   (downloadEffect s bn .success).optdesc = s.optdesc ∧
   (downloadEffect s bn .success).version = s.version ∧
   (downloadEffect s bn .success).files = none ∧
   (downloadEffect s bn .success)._site = siteOfLevel s.level) ∧
  ((downloadEffect s bn .taskFail).sc = s.sc ∧
   (downloadEffect s bn .taskFail).instr = s.instr ∧
   (downloadEffect s bn .taskFail).mode = s.mode ∧
   (downloadEffect s bn .taskFail).level = s.level ∧
   (downloadEffect s bn .taskFail).optdesc = s.optdesc ∧
   (downloadEffect s bn .taskFail).version = s.version ∧
   (downloadEffect s bn .taskFail).files = none ∧
   (downloadEffect s bn .taskFail)._site = siteOfLevel s.level) ∧
  ((downloadEffect s bn .metaFail).sc = none ∧
   (downloadEffect s bn .metaFail).instr = none ∧
   (downloadEffect s bn .metaFail).mode = none ∧
   (downloadEffect s bn .metaFail).level = none ∧
   (downloadEffect s bn .metaFail).optdesc = none ∧
   (downloadEffect s bn .metaFail).version = none ∧
   (downloadEffect s bn .metaFail).files = some (.l bn) ∧
   (downloadEffect s bn .metaFail)._site = s._site)

/-! ### Helper lemmas -/

theorem lookupFS_removeFS (fs : FS) (p : String) : lookupFS (removeFS fs p) p = none := by
  induction fs with
  | nil => rfl
  | cons kv t ih =>
    by_cases h : kv.1 = p
    · simp [removeFS, lookupFS, h, List.find?, ih]
    · simp [removeFS, lookupFS, List.find?, h, bne_iff_ne, ih]

theorem lookupFS_RemoveIfExists (fs : FS) (p : String) :
    lookupFS (RemoveIfExists fs p) p = none := by
  unfold RemoveIfExists
  split
  · exact lookupFS_removeFS fs p
  · next h => exact Option.not_isSome_iff_eq_none.mp h

theorem lookupFS_setFS (fs : FS) (p : String) (v : List Nat) :
    lookupFS (setFS fs p v) p = some v := by
  simp [setFS, lookupFS, List.find?]

theorem splitCh_ne_nil (c : Char) (l : List Char) : splitCh c l ≠ [] := by
  cases l with
  | nil => simp [splitCh]
  | cons x xs =>
    simp only [splitCh]
    split <;> simp

theorem strSplit_ne_nil (c : Char) (s : String) : strSplit c s ≠ [] := by
  simp only [strSplit, ne_eq, List.map_eq_nil_iff]
  exact splitCh_ne_nil c s.data

/-- **C10**: every assignment to `anc_product` — including assigning `None` —
sets `data_type` to `'ancillary'` as a side effect (`__setattr__` lines
109-110 guard only on the attribute name, not on the value); in particular,
on a selector with `data_type = 'science'`, assigning `anc_product = None`
leaves `data_type = 'ancillary'`. -/
theorem C10_anc_product_forces_ancillary :
    (∀ (s : Sel) (v : Option StrOrList),
      (s.setAncProduct v).toOption.map Sel.data_type = some "ancillary") ∧
    exSel.data_type = "science" ∧
    (exSel.setAncProduct none).toOption.map Sel.data_type = some "ancillary" :=
  ⟨fun s v => rfl, rfl, rfl⟩

/-- **C6**: assigning any non-empty list to `files` clears `spacecraft`,
`instrument`, `mode`, `level`, `optdesc` and `version` (`__setattr__` lines
114-121), so the selector is never simultaneously "by attributes" and "by
explicit file list". -/
theorem C6_files_clears_attributes (s : Sel) (l : List String) (h : l ≠ []) :
    (s.setFiles (some (.l l))).sc = none ∧
    (s.setFiles (some (.l l))).instr = none ∧
    (s.setFiles (some (.l l))).mode = none ∧
    (s.setFiles (some (.l l))).level = none ∧
    (s.setFiles (some (.l l))).optdesc = none ∧
    (s.setFiles (some (.l l))).version = none ∧
    (s.setFiles (some (.l l))).files = some (.l l) :=
  ⟨rfl, rfl, rfl, rfl, rfl, rfl, rfl⟩

/-- Witness for C6 at a selector that previously had `spacecraft = "mms1"`. -/
theorem C6_files_clears_attributes_witness :
    (["f1.cdf"] : List String) ≠ [] ∧ exSel.sc = some (.s "mms1") ∧
    ((exSel.setFiles (some (.l ["f1.cdf"]))).sc = none ∧
     (exSel.setFiles (some (.l ["f1.cdf"]))).instr = none ∧
     (exSel.setFiles (some (.l ["f1.cdf"]))).mode = none ∧
     (exSel.setFiles (some (.l ["f1.cdf"]))).level = none ∧
     (exSel.setFiles (some (.l ["f1.cdf"]))).optdesc = none ∧
     (exSel.setFiles (some (.l ["f1.cdf"]))).version = none ∧
     (exSel.setFiles (some (.l ["f1.cdf"]))).files = some (.l ["f1.cdf"])) :=
  ⟨by decide, rfl, C6_files_clears_attributes exSel ["f1.cdf"] (by decide)⟩

/-- **C4**: in `DownloadFile`, any failure of the streamed transfer — before
the destination is opened (`netFail`) or after a partial write (`writeFail`) —
leads to the partially written destination file being deleted before the
error propagates (lines 221-223), so no file remains at the destination path;
on success the destination path is returned (line 225). -/
theorem C4_download_cleanup (fs : FS) (file : String) :
    (∀ chunks, (DownloadFile fs file (.writeFail chunks)).2 = .error () ∧
      lookupFS (DownloadFile fs file (.writeFail chunks)).1 file = none) ∧
    ((DownloadFile fs file .netFail).2 = .error () ∧
      lookupFS (DownloadFile fs file .netFail).1 file = none) ∧
    (∀ chunks, (DownloadFile fs file (.ok chunks)).2 = .ok file ∧
      lookupFS (DownloadFile fs file (.ok chunks)).1 file = some chunks.flatten) := by
  refine ⟨fun chunks => ⟨rfl, ?_⟩, ⟨rfl, ?_⟩, fun chunks => ⟨rfl, ?_⟩⟩
  · simp only [DownloadFile]
    exact lookupFS_RemoveIfExists _ _
  · simp only [DownloadFile]
    exact lookupFS_RemoveIfExists _ _
  · simp only [DownloadFile]
    exact lookupFS_setFS _ _ _

/-- **C7**: a basename splitting into exactly 6 `'_'`-fields parses to a
7-tuple with the empty string in the descriptor position (index 4) and the
trailing 4-character extension stripped from the version field; a 7-field
name keeps its descriptor; including the two file names given by the spec. -/
theorem C7_parse_descriptor (f a b c d od e g : String) :
    (strSplit '_' (basename f) = [a, b, c, d, e, g] →
      ParseFileNames f = [a, b, c, d, "", e, g.dropRight 4]) ∧
    (strSplit '_' (basename f) = [a, b, c, d, od, e, g] →
      ParseFileNames f = [a, b, c, d, od, e, g.dropRight 4]) ∧
    ParseFileNames "mms1_fgm_srvy_l2_20200101_v1.0.0.cdf"
      = ["mms1", "fgm", "srvy", "l2", "", "20200101", "v1.0.0"] ∧
    ParseFileNames "mms1_fgm_srvy_l2_dfg_20200101_v1.0.0.cdf"
      = ["mms1", "fgm", "srvy", "l2", "dfg", "20200101", "v1.0.0"] := by
  refine ⟨fun h => ?_, fun h => ?_, by decide, by decide⟩
  · simp [ParseFileNames, h]
  · simp [ParseFileNames, h]

/-- Witness for C7: the 6-field hypothesis holds of the spec's first example
and the parse is as stated. -/
theorem C7_parse_descriptor_witness :
    strSplit '_' (basename "mms1_fgm_srvy_l2_20200101_v1.0.0.cdf")
      = ["mms1", "fgm", "srvy", "l2", "20200101", "v1.0.0.cdf"] ∧
    ParseFileNames "mms1_fgm_srvy_l2_20200101_v1.0.0.cdf"
      = ["mms1", "fgm", "srvy", "l2", "", "20200101", "v1.0.0"] :=
  ⟨by decide,
   (C7_parse_descriptor "mms1_fgm_srvy_l2_20200101_v1.0.0.cdf"
      "mms1" "fgm" "srvy" "l2" "20200101" "20200101" "v1.0.0.cdf").1 (by decide)⟩

/-- Counterexample to **C8**: `ParseFileNames` contains no error path
(lines 469-501 raise nothing); on the 3-field name `mms1_fgm_v1.0.0.cdf` it
returns the parsed 3-tuple `('mms1', 'fgm', 'v1.0.0')` instead of signalling
a malformed-name error. -/
theorem C8_counterexample :
    ParseFileNames "mms1_fgm_v1.0.0.cdf" = ["mms1", "fgm", "v1.0.0"] ∧
    (ParseFileNames "mms1_fgm_v1.0.0.cdf").length = 3 := by
  constructor <;> decide

/-- **C8 (amended)**: for a file name whose basename splits into fewer than 6
`'_'`-fields, `ParseFileNames` raises no error; it returns the fields
unchanged except that the trailing 4 characters are stripped from the last
field — a tuple with the same number of fields as the input, not normalized
to 7. -/
theorem C8_amended_short_names (f : String)
    (h : (strSplit '_' (basename f)).length < 6) :
    ParseFileNames f
      = (strSplit '_' (basename f)).dropLast
        ++ [((strSplit '_' (basename f)).getLastD "").dropRight 4] ∧
    (ParseFileNames f).length = (strSplit '_' (basename f)).length := by
  have hne : strSplit '_' (basename f) ≠ [] := strSplit_ne_nil _ _
  have h6 : ((strSplit '_' (basename f)).length == 6) = false := by
    simp only [beq_eq_false_iff_ne, ne_eq]
    omega
  constructor
  · simp [ParseFileNames, h6]
  · have := List.length_pos.mpr hne
    simp only [ParseFileNames, h6, Bool.false_eq_true, if_false,
      List.length_append, List.length_dropLast]
    simp only [List.length_cons, List.length_nil]
    omega

/-- Witness for C8's amended claim at the counterexample input. -/
theorem C8_amended_short_names_witness :
    (strSplit '_' (basename "mms1_fgm_v1.0.0.cdf")).length < 6 ∧
    (ParseFileNames "mms1_fgm_v1.0.0.cdf"
      = (strSplit '_' (basename "mms1_fgm_v1.0.0.cdf")).dropLast
        ++ [((strSplit '_' (basename "mms1_fgm_v1.0.0.cdf")).getLastD "").dropRight 4] ∧
     (ParseFileNames "mms1_fgm_v1.0.0.cdf").length
       = (strSplit '_' (basename "mms1_fgm_v1.0.0.cdf")).length) :=
  ⟨by decide, C8_amended_short_names "mms1_fgm_v1.0.0.cdf" (by decide)⟩

/-- **C9**: `data_type` accepts exactly the three canonical values the code
spells `'ancillary'`, `'hk'`, `'science'` (the spec's "housekeeping" is the
code's `'hk'`); any other value raises `ValueError` (the spec's
`InvalidSelector`), and consequently every attribute-assignment operation
preserves the invariant that `data_type` is one of the three. -/
theorem C9_data_type_validation :
    (∀ (s : Sel) (v : String), ¬(v = "ancillary" ∨ v = "hk" ∨ v = "science") →
      ∃ e, s.setDataType v = .error e) ∧
    (∀ (s : Sel) (v : String), (v = "ancillary" ∨ v = "hk" ∨ v = "science") →
      s.setDataType v = .ok { s with data_type := v }) ∧
    (∀ (s : Sel) (op : SelOp) (t : Sel), validDataType s → applyOp s op = .ok t →
      validDataType t) := by
  refine ⟨fun s v hv =>
      ⟨"Invalid value for attribute \"data_type\":\"" ++ v ++ "\".", ?_⟩,
    fun s v hv => ?_, fun s op t hs h => ?_⟩
  · unfold Sel.setDataType
    rw [if_neg]
    simp only [Bool.or_eq_true, beq_iff_eq]
    tauto
  · unfold Sel.setDataType
    rw [if_pos]
    simp only [Bool.or_eq_true, beq_iff_eq]
    tauto
  · cases op with
    | oSc v => simp only [applyOp, Except.ok.injEq] at h; subst h; exact hs
    | oInstr v => simp only [applyOp, Except.ok.injEq] at h; subst h; exact hs
    | oMode v => simp only [applyOp, Except.ok.injEq] at h; subst h; exact hs
    | oOptdesc v => simp only [applyOp, Except.ok.injEq] at h; subst h; exact hs
    | oVersion v => simp only [applyOp, Except.ok.injEq] at h; subst h; exact hs
    | oLevel v => simp only [applyOp, Except.ok.injEq] at h; subst h; exact hs
    | oOffline b => simp only [applyOp, Except.ok.injEq] at h; subst h; exact hs
    | oStartDate v => simp only [applyOp, Except.ok.injEq] at h; subst h; exact hs
    | oEndDate v => simp only [applyOp, Except.ok.injEq] at h; subst h; exact hs
    | oFiles v =>
      simp only [applyOp, Except.ok.injEq] at h
      subst h
      cases v with
      | none => exact hs
      | some x => exact hs
    | oSite v =>
      simp only [applyOp] at h
      unfold Sel.setSite at h
      split at h
      · injection h with h; subst h; exact hs
      · split at h
        · injection h with h; subst h; exact hs
        · exact Except.noConfusion h
    | oDataType v =>
      simp only [applyOp] at h
      unfold Sel.setDataType at h
      split at h
      · next hc =>
        injection h with h
        subst h
        simp only [Bool.or_eq_true, beq_iff_eq] at hc
        unfold validDataType
        tauto
      · exact Except.noConfusion h
    | oAncProduct v =>
      simp only [applyOp] at h
      have he : s.setAncProduct v
          = .ok { s with data_type := "ancillary", anc_product := v } := rfl
      rw [he] at h
      injection h with h
      subst h
      exact Or.inl rfl

/-- Witness for C9: a rejected value, an accepted value, and one preserving
operation, at concrete inputs. -/
theorem C9_data_type_validation_witness :
    (¬(("telemetry" : String) = "ancillary" ∨ ("telemetry" : String) = "hk" ∨
        ("telemetry" : String) = "science") ∧
      ∃ e, exSel.setDataType "telemetry" = .error e) ∧
    ((("hk" : String) = "ancillary" ∨ ("hk" : String) = "hk" ∨
        ("hk" : String) = "science") ∧
      exSel.setDataType "hk" = .ok { exSel with data_type := "hk" }) ∧
    (validDataType exSel ∧ applyOp exSel (.oSc none) = .ok (exSel.setSc none) ∧
      validDataType (exSel.setSc none)) :=
  ⟨⟨by decide, C9_data_type_validation.1 exSel "telemetry" (by decide)⟩,
   ⟨by decide, C9_data_type_validation.2.1 exSel "hk" (by decide)⟩,
   ⟨Or.inr (Or.inr rfl), rfl,
    C9_data_type_validation.2.2 exSel (.oSc none) (exSel.setSc none)
      (Or.inr (Or.inr rfl)) rfl⟩⟩

theorem lookup_optEntry_append (key k : String) (hne : k ≠ key)
    (v : Option StrOrList) (l2 : List (String × String)) :
    (optEntry k v ++ l2).lookup key = l2.lookup key := by
  cases v with
  | none => rfl
  | some x =>
    have hb : (key == k) = false := by
      simp only [beq_eq_false_iff_ne, ne_eq]
      exact fun e => hne e.symm
    simp [optEntry, List.lookup, hb]

/-- `Query`'s emitted `end_date` value is exactly the adjusted string threaded
into `queryList`. -/
theorem queryList_lookup_end (s : Sel) (endStr : Option String) :
    (queryList s endStr).lookup "end_date" = endStr := by
  unfold queryList
  simp only [List.append_assoc]
  rw [lookup_optEntry_append _ _ (by decide), lookup_optEntry_append _ _ (by decide),
    lookup_optEntry_append _ _ (by decide), lookup_optEntry_append _ _ (by decide),
    lookup_optEntry_append _ _ (by decide), lookup_optEntry_append _ _ (by decide),
    lookup_optEntry_append _ _ (by decide)]
  cases s._start_date <;> cases endStr <;> cases s.anc_product <;>
    simp [optEntry, List.lookup]

/-- **C1**: for a selector with both dates set, the built query's `end_date`
is the day after the raw end date exactly when the end date's calendar day
equals the start date's calendar day or the end date's time-of-day is not
midnight, and the raw end date's calendar day unchanged otherwise
(`Query`, lines 512-516). -/
theorem C1_end_date_rule (s : Sel) (sd ed : DateTime)
    (hs : s._start_date = some sd) (he : s._end_date = some ed) :
    (Query s).map (fun q => q.lookup "end_date")
      = .ok (some (if sameDateB sd ed || !(midnightB ed) then
          fmtDate (addOneDay ed) else fmtDate ed)) := by
  unfold Query
  rw [he, hs]
  simp [Except.map, queryList_lookup_end]

/-- Witness for C1: the spec's two examples — same-day midnight bumps to
`2020-01-06`; different-day midnight stays `2020-01-07`. -/
theorem C1_end_date_rule_witness :
    (Query exSelSameDay).map (fun q => q.lookup "end_date") = .ok (some "2020-01-06") ∧
    (Query exSelLaterDay).map (fun q => q.lookup "end_date") = .ok (some "2020-01-07") :=
  ⟨(C1_end_date_rule exSelSameDay ⟨2020, 1, 5, 0, 0, 0⟩ ⟨2020, 1, 5, 0, 0, 0⟩ rfl rfl).trans
      (by rfl),
   (C1_end_date_rule exSelLaterDay ⟨2020, 1, 5, 0, 0, 0⟩ ⟨2020, 1, 7, 0, 0, 0⟩ rfl rfl).trans
      (by rfl)⟩

/-- Counterexample to **C2**: on a selector whose `site` was explicitly
overridden to `'private'` (internal `"sitl"`) after `level = 'l2'` was last
set, the restoration loop of `Download` re-derives `site` from `level`
(line 279 restoring `level` runs the `__setattr__` hook of lines 122-126), so
even on the success path `site` ends as `"public"`, not its entry value; and
on an exception in `FileInfo()` (line 262, outside the `try`) nothing is
restored at all — `sc` stays cleared. -/
theorem C2_counterexample :
    (downloadEffect exSelPriv ["mms1_fgm_srvy_l2_20200101_v1.0.0.cdf"] .success)._site
        ≠ exSelPriv._site ∧
    (downloadEffect exSelPriv ["mms1_fgm_srvy_l2_20200101_v1.0.0.cdf"] .metaFail).sc
        ≠ exSelPriv.sc := by
  constructor <;> decide

/-- **C2 (amended)**: for a selector with `files = None` at entry, `Download`
restores `sc, instr, mode, level, optdesc, version, files` to their entry
values on the success path and on the download-task failure path, while
`site` is re-derived from the entry `level` (hence equal to its entry value
only when it had not been explicitly overridden since `level` was last set);
on a metadata-fetch failure nothing is restored: the attribute fields remain
cleared, `files` keeps the substituted basename list, and `site` keeps its
entry value. -/
theorem C2_amended_restore (s : Sel) (bn : List String)
    (hf : s.files = none) (hsite : s._site = "public" ∨ s._site = "sitl") :
    restoreSpec s bn := by
  obtain ⟨site, anc, dt, ed, instr, level, mode, off, optd, sc, sd, ver, files, root⟩ := s
  dsimp only at hf hsite
  subst hf
  rcases hsite with h | h <;> subst h <;>
    exact ⟨⟨rfl, rfl, rfl, rfl, rfl, rfl, rfl, rfl⟩,
      ⟨rfl, rfl, rfl, rfl, rfl, rfl, rfl, rfl⟩,
      ⟨rfl, rfl, rfl, rfl, rfl, rfl, rfl, rfl⟩⟩

/-- Witness for C2's amended claim at a concrete selector. -/
theorem C2_amended_restore_witness :
    exSel.files = none ∧ (exSel._site = "public" ∨ exSel._site = "sitl") ∧
    restoreSpec exSel ["mms1_fgm_srvy_l2_20200101_v1.0.0.cdf"] :=
  ⟨rfl, Or.inl rfl,
   C2_amended_restore exSel ["mms1_fgm_srvy_l2_20200101_v1.0.0.cdf"] rfl (Or.inl rfl)⟩

/-! ### Lemmas about `splitCh`, `basename`, and `pyJoin` -/

theorem not_mem_of_mem_splitCh (c : Char) (l : List Char) :
    ∀ p ∈ splitCh c l, c ∉ p := by
  induction l with
  | nil =>
    intro p hp
    simp only [splitCh, List.mem_singleton] at hp
    subst hp
    simp
  | cons x xs ih =>
    intro p hp
    simp only [splitCh] at hp
    cases hsp : splitCh c xs with
    | nil => exact absurd hsp (splitCh_ne_nil c xs)
    | cons h t =>
      rw [hsp] at hp
      simp only [List.headD_cons, List.tail_cons] at hp
      have ih' : ∀ q ∈ h :: t, c ∉ q := hsp ▸ ih
      by_cases hx : x = c
      · rw [if_pos hx] at hp
        rcases List.mem_cons.mp hp with hp | hp
        · subst hp; simp
        · exact ih' p hp
      · rw [if_neg hx] at hp
        rcases List.mem_cons.mp hp with hp | hp
        · subst hp
          simp only [List.mem_cons, not_or]
          exact ⟨fun e => hx e.symm, ih' h (List.mem_cons_self h t)⟩
        · exact ih' p (List.mem_cons_of_mem h hp)

theorem splitCh_eq_single (c : Char) (l : List Char) (h : c ∉ l) :
    splitCh c l = [l] := by
  induction l with
  | nil => rfl
  | cons x xs ih =>
    simp only [List.mem_cons, not_or] at h
    obtain ⟨h1, h2⟩ := h
    simp only [splitCh, ih h2, List.headD_cons, List.tail_cons]
    rw [if_neg fun e => h1 e.symm]

theorem splitCh_length (c : Char) (l : List Char) :
    (splitCh c l).length = l.count c + 1 := by
  induction l with
  | nil => simp [splitCh]
  | cons x xs ih =>
    simp only [splitCh]
    cases hsp : splitCh c xs with
    | nil => exact absurd hsp (splitCh_ne_nil c xs)
    | cons h t =>
      rw [hsp] at ih
      simp only [List.headD_cons, List.tail_cons]
      by_cases hx : x = c
      · rw [if_pos hx]
        simp only [List.length_cons] at ih ⊢
        rw [List.count_cons]
        have hb : (x == c) = true := beq_iff_eq.mpr hx
        rw [hb, if_pos rfl]
        omega
      · rw [if_neg hx]
        simp only [List.length_cons] at ih ⊢
        rw [List.count_cons]
        have hb : ¬((x == c) = true) := by
          simp only [beq_iff_eq]
          exact hx
        rw [if_neg hb]
        omega

theorem splitCh_getLast?_append (c : Char) (l1 l2 : List Char) (h : c ∉ l2) :
    (splitCh c (l1 ++ c :: l2)).getLast? = some l2 := by
  induction l1 with
  | nil =>
    show (splitCh c (c :: l2)).getLast? = some l2
    simp only [splitCh, splitCh_eq_single c l2 h]
    rw [if_pos trivial]
    rfl
  | cons x l1 ih =>
    have hne : splitCh c (l1 ++ c :: l2) ≠ [] := splitCh_ne_nil _ _
    have hlen : 2 ≤ (splitCh c (l1 ++ c :: l2)).length := by
      rw [splitCh_length]
      have hmem : c ∈ l1 ++ c :: l2 := by simp
      have := List.count_pos_iff.mpr hmem
      omega
    simp only [List.cons_append, splitCh]
    cases hsp : splitCh c (l1 ++ c :: l2) with
    | nil => exact absurd hsp hne
    | cons hh tt =>
      rw [hsp] at ih hlen
      simp only [List.headD_cons, List.tail_cons]
      cases tt with
      | nil => simp at hlen
      | cons t1 ts =>
        by_cases hx : x = c
        · rw [if_pos hx, List.getLast?_cons_cons]
          exact ih
        · rw [if_neg hx, List.getLast?_cons_cons]
          rw [List.getLast?_cons_cons] at ih
          exact ih

theorem strData_append (a b : String) : (a ++ b).data = a.data ++ b.data :=
  String.data_append a b

theorem basename_of_no_slash (cs : String) (h : '/' ∉ cs.data) : basename cs = cs := by
  unfold basename strSplit
  rw [splitCh_eq_single '/' cs.data h]
  rfl

theorem basename_append_sep (a cs : String) (ha : a.data.getLast? = some '/')
    (h : '/' ∉ cs.data) : basename (a ++ cs) = cs := by
  obtain ⟨l1, hl1⟩ := List.getLast?_eq_some_iff.mp ha
  unfold basename strSplit
  rw [strData_append, hl1, List.append_assoc, List.singleton_append]
  rw [List.getLastD_eq_getLast?, List.getLast?_map, splitCh_getLast?_append '/' l1 cs.data h]
  rfl

theorem basename_join2 (a cs : String) (h : '/' ∉ cs.data) :
    basename (join2 a cs) = cs := by
  unfold join2
  split
  · next hb =>
    exfalso
    have : '/' ∈ cs.data := by
      cases hcs : cs.data with
      | nil => rw [hcs] at hb; exact Option.noConfusion hb
      | cons y ys =>
        rw [hcs] at hb
        simp only [List.head?_cons, Option.some.injEq] at hb
        rw [hb]
        exact List.mem_cons_self _ _
    exact h this
  · split
    · next hcond =>
      rcases hcond with he | hl
      · unfold basename strSplit
        rw [strData_append, he, List.nil_append, splitCh_eq_single '/' cs.data h]
        rfl
      · exact basename_append_sep a cs hl h
    · have hsep : (a ++ "/").data.getLast? = some '/' := by
        rw [strData_append]
        exact List.getLast?_concat _
      exact basename_append_sep (a ++ "/") cs hsep h

theorem basename_pyJoin_concat (root : String) (comps : List String) (c : String)
    (h : '/' ∉ c.data) : basename (pyJoin (root :: (comps ++ [c]))) = c := by
  show basename ((comps ++ [c]).foldl join2 root) = c
  rw [List.foldl_append]
  exact basename_join2 _ c h

theorem getLast?_drop_of_lt {α : Type} (l : List α) (n : Nat) (h : n < l.length) :
    (l.drop n).getLast? = l.getLast? := by
  induction l generalizing n with
  | nil => simp at h
  | cons x xs ih =>
    cases n with
    | zero => rfl
    | succ m =>
      simp only [List.drop_succ_cons]
      have hm : m < xs.length := by simpa using h
      rw [ih m hm]
      cases xs with
      | nil => simp at hm
      | cons y ys => rw [List.getLast?_cons_cons]

/-- For a remote identifier with at least three `'/'`-separated components,
the derived local name has the same basename as the identifier (the last
component survives `os.path.join(data_root, *parts[2:])`). -/
theorem basename_r2lname (root r : String) (h : 3 ≤ (strSplit '/' r).length) :
    basename (r2lname root r) = basename r := by
  have hlen : (strSplit '/' r).length - 2 = ((strSplit '/' r).drop 2).length :=
    (List.length_drop 2 (strSplit '/' r)).symm
  have hne : (strSplit '/' r).drop 2 ≠ [] := by
    intro he
    rw [he] at hlen
    simp at hlen
    omega
  have hlast2 : ((strSplit '/' r).drop 2).getLast? = (strSplit '/' r).getLast? :=
    getLast?_drop_of_lt _ 2 (by omega)
  obtain ⟨gl, hgl⟩ := Option.isSome_iff_exists.mp (List.getLast?_isSome.mpr hne)
  have hglmem : gl ∈ strSplit '/' r :=
    List.mem_of_mem_drop (List.mem_of_getLast?_eq_some hgl)
  have hglfree : '/' ∉ gl.data := by
    unfold strSplit at hglmem
    obtain ⟨p, hp, hpe⟩ := List.mem_map.mp hglmem
    have := not_mem_of_mem_splitCh '/' r.data p hp
    rw [← hpe]
    exact this
  obtain ⟨init, hinit⟩ := List.getLast?_eq_some_iff.mp hgl
  unfold r2lname
  rw [hinit, basename_pyJoin_concat root init gl hglfree]
  unfold basename
  rw [List.getLastD_eq_getLast?, ← hlast2, hgl]
  rfl

/-! ### The index comprehensions of `Search` as element-wise filters -/

theorem range_filter_getD_map (xs : List String) (p : String → Bool) :
    ((List.range xs.length).filter fun i => p (xs.getD i "")).map (fun i => xs.getD i "")
      = xs.filter p := by
  induction xs with
  | nil => rfl
  | cons x t ih =>
    have key : ((List.map Nat.succ (List.range t.length)).filter
        fun i => p ((x :: t).getD i "")).map (fun i => (x :: t).getD i "")
        = t.filter p := by
      rw [List.filter_map, List.map_map]
      simp only [Function.comp_def, Nat.succ_eq_add_one, List.getD_cons_succ]
      exact ih
    rw [List.length_cons, List.range_succ_eq_map, List.filter_cons, List.filter_cons]
    simp only [List.getD_cons_zero]
    by_cases hp : p x
    · rw [if_pos hp, if_pos hp, List.map_cons]
      simp only [List.getD_cons_zero]
      rw [key]
    · rw [if_neg hp, if_neg hp, key]

theorem getD_map_of_lt (xs : List String) (g : String → String) (i : Nat)
    (h : i < xs.length) : (xs.map g).getD i "" = g (xs.getD i "") := by
  rw [List.getD_eq_getElem?_getD, List.getD_eq_getElem?_getD, List.getElem?_map,
    List.getElem?_eq_getElem h]
  rfl

theorem range_filter_not_contains (xs : List String) (g : String → String)
    (p : String → Bool) :
    ((List.range xs.length).filter fun i =>
        !(((List.range (xs.map g).length).filter
            fun j => p ((xs.map g).getD j "")).contains i)).map
      (fun i => xs.getD i "")
      = xs.filter fun x => !(p (g x)) := by
  have hcong : ∀ i ∈ List.range xs.length,
      (!(((List.range (xs.map g).length).filter
          fun j => p ((xs.map g).getD j "")).contains i))
        = !(p (g (xs.getD i ""))) := by
    intro i hi
    rw [List.mem_range] at hi
    congr 1
    rw [Bool.eq_iff_iff]
    constructor
    · intro hc
      have hmem := List.elem_iff.mp hc
      rw [List.mem_filter, List.mem_range, List.length_map] at hmem
      obtain ⟨hilt, hp⟩ := hmem
      rw [getD_map_of_lt xs g i hilt] at hp
      exact hp
    · intro hp
      apply List.elem_iff.mpr
      rw [List.mem_filter, List.mem_range, List.length_map]
      refine ⟨hi, ?_⟩
      rw [getD_map_of_lt xs g i hi]
      exact hp
  rw [List.filter_congr hcong]
  exact range_filter_getD_map xs (fun x => !(p (g x)))

/-- The non-offline branch of `Search`, with its index comprehensions
(lines 595-599) expressed as element-wise filters over the remote listing. -/
theorem Search_not_offline (tp isfile : String → Bool) (localEnum : List String)
    (respText : String) (s : Sel) (hoff : s.offline = false) :
    Search tp isfile localEnum respText s
      = ((let listing := FileNames tp respText
          let locals := (listing.filter fun r => isfile (r2lname s.data_root r)).map
            (r2lname s.data_root)
          let remotes := listing.filter fun r => !(isfile (r2lname s.data_root r))
          (if 0 < locals.length then filter_time tp locals else locals,
           if 0 < remotes.length then filter_time tp remotes else remotes)),
         ["file_names"]) := by
  unfold Search remote2localnames
  rw [hoff]
  simp only [Bool.false_eq_true, if_false]
  rw [range_filter_getD_map ((FileNames tp respText).map (r2lname s.data_root)) isfile]
  rw [range_filter_not_contains (FileNames tp respText) (r2lname s.data_root) isfile]
  rw [List.filter_map]
  rfl

/-- **C3**: in a non-offline `Search`, each remote identifier of the
time-filtered remote listing lands in exactly one of the two result lists —
as its derived local name (`data_root` joined with its `'/'`-components after
the first two) in the local list when that name exists on disk, otherwise
unchanged in the remote list — and both lists are order-preserving filters of
the listing (no re-sorting).  The hypothesis that identifiers have at least
three `'/'`-components reflects their path-like shape (spec §4.4); it makes
the defensive re-filter of lines 602-605 the identity, because the derived
local name keeps the identifier's basename and hence its time tag. -/
theorem C3_search_partition (tp isfile : String → Bool) (localEnum : List String)
    (respText : String) (s : Sel)
    (hoff : s.offline = false)
    (hcomp : ∀ r ∈ FileNames tp respText, 3 ≤ (strSplit '/' r).length) :
    ((Search tp isfile localEnum respText s).1.1
        = ((FileNames tp respText).filter fun r => isfile (r2lname s.data_root r)).map
          (r2lname s.data_root) ∧
     (Search tp isfile localEnum respText s).1.2
        = (FileNames tp respText).filter fun r => !(isfile (r2lname s.data_root r))) ∧
    ∀ r ∈ FileNames tp respText,
      (isfile (r2lname s.data_root r) = true →
        r2lname s.data_root r ∈ (Search tp isfile localEnum respText s).1.1 ∧
        r ∉ (Search tp isfile localEnum respText s).1.2) ∧
      (isfile (r2lname s.data_root r) = false →
        r ∈ (Search tp isfile localEnum respText s).1.2 ∧
        r2lname s.data_root r ∉ (Search tp isfile localEnum respText s).1.1) := by
  have htp : ∀ r ∈ FileNames tp respText, tp (basename r) = true := by
    intro r hr
    unfold FileNames at hr
    split at hr
    · exact absurd hr (List.not_mem_nil r)
    · unfold filter_time at hr
      exact (List.mem_filter.mp hr).2
  have hS := Search_not_offline tp isfile localEnum respText s hoff
  have hloc : filter_time tp
        (((FileNames tp respText).filter fun r => isfile (r2lname s.data_root r)).map
          (r2lname s.data_root))
      = ((FileNames tp respText).filter fun r => isfile (r2lname s.data_root r)).map
          (r2lname s.data_root) := by
    unfold filter_time
    apply List.filter_eq_self.mpr
    intro a ha
    obtain ⟨r, hr, hre⟩ := List.mem_map.mp ha
    have hrl : r ∈ FileNames tp respText := (List.mem_filter.mp hr).1
    rw [← hre, basename_r2lname s.data_root r (hcomp r hrl)]
    exact htp r hrl
  have hrem : filter_time tp
        ((FileNames tp respText).filter fun r => !(isfile (r2lname s.data_root r)))
      = (FileNames tp respText).filter fun r => !(isfile (r2lname s.data_root r)) := by
    unfold filter_time
    apply List.filter_eq_self.mpr
    intro a ha
    exact htp a (List.mem_filter.mp ha).1
  have hfinal1 : (Search tp isfile localEnum respText s).1.1
      = ((FileNames tp respText).filter fun r => isfile (r2lname s.data_root r)).map
        (r2lname s.data_root) := by
    rw [hS]
    dsimp only
    rw [hloc, ite_self]
  have hfinal2 : (Search tp isfile localEnum respText s).1.2
      = (FileNames tp respText).filter fun r => !(isfile (r2lname s.data_root r)) := by
    rw [hS]
    dsimp only
    rw [hrem, ite_self]
  refine ⟨⟨hfinal1, hfinal2⟩, ?_⟩
  intro r hr
  constructor
  · intro hf
    constructor
    · rw [hfinal1]
      exact List.mem_map.mpr ⟨r, List.mem_filter.mpr ⟨hr, hf⟩, rfl⟩
    · rw [hfinal2]
      intro hmem
      have h2 := (List.mem_filter.mp hmem).2
      rw [hf] at h2
      exact Bool.noConfusion h2
  · intro hf
    constructor
    · rw [hfinal2]
      refine List.mem_filter.mpr ⟨hr, ?_⟩
      rw [hf]
      rfl
    · rw [hfinal1]
      intro hmem
      obtain ⟨r2, hr2, hre⟩ := List.mem_map.mp hmem
      have h2 := (List.mem_filter.mp hr2).2
      rw [hre, hf] at h2
      exact Bool.noConfusion h2

/-- Witness for C3 at a concrete remote listing of one identifier
`"m/d/a.cdf"` that is absent locally. -/
theorem C3_search_partition_witness :
    exSel.offline = false ∧
    (∀ r ∈ FileNames (fun _ => true) "m/d/a.cdf", 3 ≤ (strSplit '/' r).length) ∧
    (((Search (fun _ => true) (fun _ => false) [] "m/d/a.cdf" exSel).1.1
        = ((FileNames (fun _ => true) "m/d/a.cdf").filter
            fun r => (fun _ => false) (r2lname exSel.data_root r)).map
          (r2lname exSel.data_root) ∧
      (Search (fun _ => true) (fun _ => false) [] "m/d/a.cdf" exSel).1.2
        = (FileNames (fun _ => true) "m/d/a.cdf").filter
            fun r => !((fun _ => false) (r2lname exSel.data_root r))) ∧
    ∀ r ∈ FileNames (fun _ => true) "m/d/a.cdf",
      ((fun _ => false) (r2lname exSel.data_root r) = true →
        r2lname exSel.data_root r ∈
          (Search (fun _ => true) (fun _ => false) [] "m/d/a.cdf" exSel).1.1 ∧
        r ∉ (Search (fun _ => true) (fun _ => false) [] "m/d/a.cdf" exSel).1.2) ∧
      ((fun _ => false) (r2lname exSel.data_root r) = false →
        r ∈ (Search (fun _ => true) (fun _ => false) [] "m/d/a.cdf" exSel).1.2 ∧
        r2lname exSel.data_root r ∉
          (Search (fun _ => true) (fun _ => false) [] "m/d/a.cdf" exSel).1.1)) :=
  ⟨rfl, by decide,
   C3_search_partition (fun _ => true) (fun _ => false) [] "m/d/a.cdf" exSel rfl (by decide)⟩

/-- **C5**: with `offline = true`, `Search` returns the local enumeration
paired with an empty remote list and issues no network request (empty trace),
and `Download` returns exactly the local list produced by `Search`, likewise
with no network request (lines 582-585, 234-236).  The hypothesis says the
enumerated local files lie inside the requested interval, which `Local_FileNames`
guarantees by constructing its search patterns only for days of the interval
(spec §4.3); the defensive time re-filter of line 603 is then the identity. -/
theorem C5_offline_no_network (tp isfile : String → Bool) (localEnum : List String)
    (respText : String) (newfiles : List String) (s : Sel)
    (hoff : s.offline = true)
    (henum : ∀ f ∈ localEnum, tp (basename f) = true) :
    Search tp isfile localEnum respText s = ((localEnum, []), []) ∧
    Download tp isfile localEnum respText newfiles s = (localEnum, []) := by
  have hfe : filter_time tp localEnum = localEnum := by
    unfold filter_time
    exact List.filter_eq_self.mpr henum
  have hsearch : Search tp isfile localEnum respText s = ((localEnum, []), []) := by
    unfold Search
    rw [hoff]
    simp [hfe]
  refine ⟨hsearch, ?_⟩
  unfold Download
  rw [hsearch, hoff]
  simp

/-- Witness for C5 at a concrete offline selector and local enumeration. -/
theorem C5_offline_no_network_witness :
    exSelOffline.offline = true ∧
    (∀ f ∈ ["data/a.cdf"], (fun _ => true) (basename f) = true) ∧
    (Search (fun _ => true) (fun _ => false) ["data/a.cdf"] "x" exSelOffline
        = (( ["data/a.cdf"], []), []) ∧
     Download (fun _ => true) (fun _ => false) ["data/a.cdf"] "x" [] exSelOffline
        = (["data/a.cdf"], [])) :=
  ⟨rfl, by decide,
   C5_offline_no_network (fun _ => true) (fun _ => false) ["data/a.cdf"] "x" [] exSelOffline
     rfl (by decide)⟩

end MmsSdcApiClient
